import Mathlib

/-!
# gousb: descriptor parsing and transfer dispatch

A shallow embedding of `descriptor.go`, `consts.go` and the transfer part of
`libusb.go`.

Conventions of the embedding:

* a Go `[]byte` is a `List Nat`; a byte is a `Nat` (theorems that depend on the
  byte range carry the hypothesis that every element is below 256);
* a Go call that may panic at run time (index or slice bound out of range)
  returns an `Option`, where `none` is the panic;
* a Go `(value, error)` result is a pair whose second component is
  `Option GoError`, `none` being the `nil` error;
* the native libusb library is a stub: a function from the call made to the
  reply of the library, together with a log of the calls made so far.
-/

namespace gousb

/-! ## consts.go -/

def EndpointIn : Nat := 0x80
def EndpointOut : Nat := 0x00

def DescriptorTypeDevice : Nat := 0x01
def DescriptorTypeConfig : Nat := 0x02
def DescriptorTypeString : Nat := 0x03
def DescriptorTypeInterface : Nat := 0x04
def DescriptorTypeEndpoint : Nat := 0x05

/-- Go `error` values built by this package: `errors.New(msg)` and `Error(rc)`. -/
inductive GoError where
  | text (msg : String)
  | usb (rc : Int)
deriving DecidableEq, Repr

/-! ## descriptor.go

Each `Put` is the sequence of its assignments to the receiver, one step per
Go statement; a step that indexes out of range makes the whole call panic. -/

/-- Go slice expression `b[lo:]`; panics when `lo` exceeds the length. -/
def sliceFrom (b : List Nat) (lo : Nat) : Option (List Nat) :=
  if lo ≤ b.length then some (b.drop lo) else none

/-- Go slice expression `b[lo:hi]`; panics unless `lo ≤ hi ≤ len(b)`
(the capacity of a slice is taken to be its length). -/
def sliceFromTo (b : List Nat) (lo hi : Nat) : Option (List Nat) :=
  if lo ≤ hi ∧ hi ≤ b.length then some ((b.take hi).drop lo) else none

/-- The method `binary.LittleEndian.Uint16`:
`_ = b[1]; return uint16(b[0]) | uint16(b[1])<<8`. -/
def usbEncoding_Uint16 (b : List Nat) : Option Nat := do
  let _ ← b[1]?
  let b0 ← b[0]?
  let b1 ← b[1]?
  pure ((b0 % 65536) ||| (((b1 % 65536) <<< 8) % 65536))

structure DeviceDescriptor where
  Length : Nat := 0
  DescriptorType : Nat := 0
  BcdUSB : Nat := 0
  DeviceClass : Nat := 0
  DeviceSubClass : Nat := 0
  DeviceProtol : Nat := 0
  MaxPacketSize0 : Nat := 0
  IDVender : Nat := 0
  IDProduct : Nat := 0
  BcdDevice : Nat := 0
  IdxManufacturer : Nat := 0
  IdxProduct : Nat := 0
  IdxSerialNumber : Nat := 0
  NumConfiguation : Nat := 0
deriving DecidableEq, Repr

def deviceDescriptorLength : Nat := 18

def DeviceDescriptor.Put (desc : DeviceDescriptor) (b : List Nat) : Option DeviceDescriptor :=
  some desc
    |>.bind (fun d => do pure { d with Length := ← b[0]? })
    |>.bind (fun d => do pure { d with DescriptorType := ← b[1]? })
    |>.bind (fun d => do pure { d with BcdUSB := ← (sliceFrom b 2).bind usbEncoding_Uint16 })
    |>.bind (fun d => do pure { d with DeviceClass := ← b[4]? })
    |>.bind (fun d => do pure { d with DeviceSubClass := ← b[5]? })
    |>.bind (fun d => do pure { d with DeviceProtol := ← b[6]? })
    |>.bind (fun d => do pure { d with MaxPacketSize0 := ← b[7]? })
    |>.bind (fun d => do pure { d with IDVender := ← (sliceFrom b 8).bind usbEncoding_Uint16 })
    |>.bind (fun d => do pure { d with IDProduct := ← (sliceFrom b 10).bind usbEncoding_Uint16 })
    |>.bind (fun d => do pure { d with BcdDevice := ← (sliceFrom b 12).bind usbEncoding_Uint16 })
    |>.bind (fun d => do pure { d with IdxManufacturer := ← b[14]? })
    |>.bind (fun d => do pure { d with IdxProduct := ← b[15]? })
    |>.bind (fun d => do pure { d with IdxSerialNumber := ← b[16]? })
    |>.bind (fun d => do pure { d with NumConfiguation := ← b[17]? })

structure ConfigurationDescriptor where
  Length : Nat := 0
  DescriptorType : Nat := 0
  TotalLength : Nat := 0
  NumInterfaces : Nat := 0
  ConfigurationValue : Nat := 0
  IdxConfiguration : Nat := 0
  Attributes : Nat := 0
  MaxPower : Nat := 0
deriving DecidableEq, Repr

def configurationDescriptorLength : Nat := 9

def ConfigurationDescriptor.Put (desc : ConfigurationDescriptor) (b : List Nat) :
    Option ConfigurationDescriptor :=
  some desc
    |>.bind (fun d => do pure { d with Length := ← b[0]? })
    |>.bind (fun d => do pure { d with DescriptorType := ← b[1]? })
    |>.bind (fun d => do pure { d with TotalLength := ← (sliceFrom b 2).bind usbEncoding_Uint16 })
    |>.bind (fun d => do pure { d with NumInterfaces := ← b[4]? })
    |>.bind (fun d => do pure { d with ConfigurationValue := ← b[5]? })
    |>.bind (fun d => do pure { d with IdxConfiguration := ← b[6]? })
    |>.bind (fun d => do pure { d with Attributes := ← b[7]? })
    |>.bind (fun d => do pure { d with MaxPower := ← b[8]? })

structure InterfaceDescriptor where
  Length : Nat := 0
  DescriptorType : Nat := 0
  InterfaceNumber : Nat := 0
  AlternateSetting : Nat := 0
  NumEndpoint : Nat := 0
  InterfaceClass : Nat := 0
  InterfaceSubClass : Nat := 0
  InterfaceProtocol : Nat := 0
  IdxInterface : Nat := 0
deriving DecidableEq, Repr

def interfaceDescriptorLength : Nat := 9

def InterfaceDescriptor.Put (desc : InterfaceDescriptor) (b : List Nat) :
    Option InterfaceDescriptor :=
  some desc
    |>.bind (fun d => do pure { d with Length := ← b[0]? })
    |>.bind (fun d => do pure { d with DescriptorType := ← b[1]? })
    |>.bind (fun d => do pure { d with InterfaceNumber := ← b[2]? })
    |>.bind (fun d => do pure { d with AlternateSetting := ← b[3]? })
    |>.bind (fun d => do pure { d with NumEndpoint := ← b[4]? })
    |>.bind (fun d => do pure { d with InterfaceClass := ← b[5]? })
    |>.bind (fun d => do pure { d with InterfaceSubClass := ← b[6]? })
    |>.bind (fun d => do pure { d with InterfaceProtocol := ← b[7]? })
    |>.bind (fun d => do pure { d with IdxInterface := ← b[8]? })

structure EndpointDescriptor where
  Length : Nat := 0
  DescriptorType : Nat := 0
  EndpointAddress : Nat := 0
  Attributes : Nat := 0
  MaxPacketSize : Nat := 0
  Interval : Nat := 0
deriving DecidableEq, Repr

def endpointDescriptorLength : Nat := 7

def EndpointDescriptor.Put (desc : EndpointDescriptor) (b : List Nat) :
    Option EndpointDescriptor :=
  some desc
    |>.bind (fun d => do pure { d with Length := ← b[0]? })
    |>.bind (fun d => do pure { d with DescriptorType := ← b[1]? })
    |>.bind (fun d => do pure { d with EndpointAddress := ← b[2]? })
    |>.bind (fun d => do pure { d with Attributes := ← b[3]? })
    |>.bind (fun d => do pure { d with MaxPacketSize := ← (sliceFrom b 4).bind usbEncoding_Uint16 })
    |>.bind (fun d => do pure { d with Interval := ← b[6]? })

def EndpointDescriptor.InOut (desc : EndpointDescriptor) : Nat :=
  desc.EndpointAddress &&& 0x80

def EndpointDescriptor.Ep (desc : EndpointDescriptor) : Nat :=
  desc.EndpointAddress &&& 0x0F

def EndpointDescriptor.TransferType (desc : EndpointDescriptor) : Nat :=
  desc.Attributes &&& 0x03

/-- The field `String` is a Go string, kept as its sequence of bytes. -/
structure StringDescriptor where
  Length : Nat := 0
  DescriptorType : Nat := 0
  String : List Nat := []
deriving DecidableEq, Repr

def StringDescriptor.Put (desc : StringDescriptor) (b : List Nat) : Option StringDescriptor :=
  some desc
    |>.bind (fun d => do pure { d with Length := ← b[0]? })
    |>.bind (fun d => do pure { d with DescriptorType := ← b[1]? })
    |>.bind (fun d => do pure { d with String := ← sliceFromTo b 2 d.Length })

/-- The interface `Descriptor`, as the sum of the five types implementing it. -/
inductive Descriptor where
  | device (d : DeviceDescriptor)
  | config (d : ConfigurationDescriptor)
  | interface (d : InterfaceDescriptor)
  | endpoint (d : EndpointDescriptor)
  | string (d : StringDescriptor)
deriving DecidableEq, Repr

def errTooLess : GoError := .text "too less bytes"
def errNoEnough : GoError := .text "no enough data"
def errLengthMismatch : GoError := .text "descriptor length mismatch"
def errUnknown : GoError := .text "unknown descriptor"

def ParseDescriptor (b : List Nat) : Option (Option Descriptor × Option GoError) :=
  if b.length < 2 then
    some (none, some errTooLess)
  else do
    let length ← b[0]?
    let typ ← b[1]?
    if b.length < length then
      pure (none, some errNoEnough)
    else if typ = DescriptorTypeDevice then
      if length ≠ deviceDescriptorLength then
        pure (none, some errLengthMismatch)
      else do
        let desc ← DeviceDescriptor.Put {} b
        pure (some (.device desc), none)
    else if typ = DescriptorTypeConfig then
      if length ≠ configurationDescriptorLength then
        pure (none, some errLengthMismatch)
      else do
        let desc ← ConfigurationDescriptor.Put {} b
        pure (some (.config desc), none)
    else if typ = DescriptorTypeInterface then
      if length ≠ interfaceDescriptorLength then
        pure (none, some errLengthMismatch)
      else do
        let desc ← InterfaceDescriptor.Put {} b
        pure (some (.interface desc), none)
    else if typ = DescriptorTypeEndpoint then
      if length ≠ endpointDescriptorLength then
        pure (none, some errLengthMismatch)
      else do
        let desc ← EndpointDescriptor.Put {} b
        pure (some (.endpoint desc), none)
    else if typ = DescriptorTypeString then do
      let desc ← StringDescriptor.Put {} b
      pure (some (.string desc), none)
    else
      pure (none, some errUnknown)

/-! ## The native library, as a stub -/

/-- A call into libusb, with the scalar arguments the Go code passes
(`length` is the size of the buffer handed over). -/
inductive HostCall where
  | control_transfer (typ req value index wLength timeout : Nat)
  | bulk_transfer (ep length timeout : Nat)
  | interrupt_transfer (ep length timeout : Nat)
  | get_string_descriptor (desc_index langid length : Nat)
deriving DecidableEq, Repr

/-- What libusb reports for one call: the status it returns, the value it
stores through the `transferred` pointer, and the bytes it stores into the
buffer it was handed. -/
structure HostReply where
  rc : Int
  transferred : Int
  data : List Nat
deriving DecidableEq, Repr

/-- The stub: how it answers a call given the calls made before, and the log
of the calls made so far. -/
structure Usb where
  reply : List HostCall → HostCall → HostReply
  calls : List HostCall

def Usb.call (u : Usb) (c : HostCall) : HostReply × Usb :=
  (u.reply u.calls c, { u with calls := u.calls ++ [c] })

/-- The buffer `p` after the library stored `data` into it: a Go slice keeps
its length, the bytes stored overwrite a prefix. -/
def writeBuf (p data : List Nat) : List Nat :=
  data.take p.length ++ p.drop data.length

/-! ## libusb.go -/

/-- The struct `Handle`; of the device it refers to the cached device
descriptor is kept, the native pointer is left to the stub. -/
structure Handle where
  dev : DeviceDescriptor := {}
  timeout : Nat := 0
deriving DecidableEq, Repr

/-- What a transfer leaves behind: the Go result `(n, err)`, the caller's
buffer `p` and the stub. -/
structure Transfer where
  n : Int
  err : Option GoError
  p : List Nat
  usb : Usb

def Handle.ControlTransferTimeout (u : Usb) (_h : Handle) (typ req value index : Nat)
    (p : List Nat) (timeout : Nat) : Option Transfer :=
  let (r, u) := u.call (.control_transfer (typ % 256) (req % 256) (value % 65536)
    (index % 65536) (p.length % 65536) (timeout % 4294967296))
  let p := writeBuf p r.data
  let rc := r.rc
  if rc < 0 then
    some ⟨0, some (.usb rc), p, u⟩
  else
    some ⟨rc, none, p, u⟩

def Handle.bulkTransferTimeout (u : Usb) (_h : Handle) (ep : Nat) (p : List Nat)
    (timeout : Nat) : Option Transfer := do
  let _ ← p[0]?
  let (r, u) := u.call (.bulk_transfer (ep % 256) p.length (timeout % 4294967296))
  let p := writeBuf p r.data
  let rc := r.rc
  if rc ≠ 0 then
    pure ⟨0, some (.usb rc), p, u⟩
  else
    pure ⟨r.transferred, none, p, u⟩

def Handle.BulkRead (u : Usb) (h : Handle) (ep : Nat) (p : List Nat) : Option Transfer :=
  Handle.bulkTransferTimeout u h ((ep &&& 0x07) ||| EndpointIn) p h.timeout

def Handle.BulkWrite (u : Usb) (h : Handle) (ep : Nat) (p : List Nat) : Option Transfer :=
  Handle.bulkTransferTimeout u h ((ep &&& 0x07) ||| EndpointOut) p h.timeout

def Handle.interruptTransferTimeout (u : Usb) (_h : Handle) (ep : Nat) (p : List Nat)
    (timeout : Nat) : Option Transfer := do
  let _ ← p[0]?
  let (r, u) := u.call (.interrupt_transfer (ep % 256) p.length (timeout % 4294967296))
  let p := writeBuf p r.data
  let rc := r.rc
  if rc ≠ 0 then
    pure ⟨0, some (.usb rc), p, u⟩
  else
    pure ⟨r.transferred, none, p, u⟩

def Handle.InterruptRead (u : Usb) (h : Handle) (ep : Nat) (p : List Nat) : Option Transfer :=
  Handle.interruptTransferTimeout u h ((ep &&& 0x07) ||| EndpointIn) p h.timeout

def Handle.InterruptWrite (u : Usb) (h : Handle) (ep : Nat) (p : List Nat) : Option Transfer :=
  Handle.interruptTransferTimeout u h ((ep &&& 0x07) ||| EndpointOut) p h.timeout

structure BulkTransfer where
  h : Handle := {}
  epIn : Nat := 0
  epOut : Nat := 0
  timeout : Nat := 0
  flag : Nat := 0
deriving DecidableEq, Repr

def bulkTransferCanRead : Nat := 1 <<< 0
def bulkTransferCanWrite : Nat := 1 <<< 1

def errCannotRead : GoError := .text "bulk transfer: cannot read"
def errCannotWrite : GoError := .text "bulk transfer: cannot write"

def BulkTransfer.Read (u : Usb) (bt : BulkTransfer) (p : List Nat) : Option Transfer :=
  if bt.flag &&& bulkTransferCanRead = 0 then
    some ⟨0, some errCannotRead, p, u⟩
  else
    Handle.bulkTransferTimeout u bt.h ((bt.epIn &&& 0x07) ||| EndpointIn) p bt.timeout

def BulkTransfer.Write (u : Usb) (bt : BulkTransfer) (p : List Nat) : Option Transfer :=
  if bt.flag &&& bulkTransferCanWrite = 0 then
    some ⟨0, some errCannotWrite, p, u⟩
  else
    Handle.bulkTransferTimeout u bt.h ((bt.epOut &&& 0x07) ||| EndpointOut) p bt.timeout

def Handle.GetBulkTransfer (h : Handle) (epIn epOut : Nat) : BulkTransfer :=
  { h := h, epIn := epIn, epOut := epOut, timeout := h.timeout,
    flag := bulkTransferCanRead ||| bulkTransferCanWrite }

def Handle.GetBulkReader (h : Handle) (ep : Nat) : BulkTransfer :=
  { h := h, epIn := ep, timeout := h.timeout, flag := bulkTransferCanRead }

def Handle.GetBulkWriter (h : Handle) (ep : Nat) : BulkTransfer :=
  { h := h, epOut := ep, timeout := h.timeout, flag := bulkTransferCanWrite }

/-! ### unicode/utf16 and unicode/utf8 (Go standard library)

Runes are `Nat`: `utf16.Decode` yields no negative rune, and it is the only
source of the runes encoded here. -/

namespace utf16

def replacementChar : Nat := 0xFFFD
def surr1 : Nat := 0xd800
def surr2 : Nat := 0xdc00
def surr3 : Nat := 0xe000
def surrSelf : Nat := 0x10000

/-- The valid-pair branch of `utf16.DecodeRune`:
`(r1-surr1)<<10 | (r2 - surr2) + surrSelf`. -/
def DecodeRune (r1 r2 : Nat) : Nat :=
  if surr1 ≤ r1 ∧ r1 < surr2 ∧ surr2 ≤ r2 ∧ r2 < surr3 then
    ((((r1 - surr1) <<< 10) ||| (r2 - surr2)) + surrSelf)
  else
    replacementChar

def Decode : List Nat → List Nat
  | [] => []
  | [r] => if r < surr1 ∨ surr3 ≤ r then [r] else [replacementChar]
  | r :: r2 :: rest =>
    if r < surr1 ∨ surr3 ≤ r then
      r :: Decode (r2 :: rest)
    else if surr1 ≤ r ∧ r < surr2 ∧ surr2 ≤ r2 ∧ r2 < surr3 then
      DecodeRune r r2 :: Decode rest
    else
      replacementChar :: Decode (r2 :: rest)

end utf16

namespace utf8

def RuneError : Nat := 0xFFFD
def MaxRune : Nat := 0x10FFFF
def surrogateMin : Nat := 0xD800
def surrogateMax : Nat := 0xDFFF
def tx : Nat := 0x80
def t2 : Nat := 0xC0
def t3 : Nat := 0xE0
def t4 : Nat := 0xF0
def maskx : Nat := 0x3F
def rune1Max : Nat := 0x7F
def rune2Max : Nat := 0x7FF
def rune3Max : Nat := 0xFFFF

/-- The three-byte case of `EncodeRune`, shared by the `fallthrough`. -/
def encode3 (p : List Nat) (r : Nat) : Option (List Nat × Nat) := do
  let _ ← p[2]?
  let p := p.set 0 (t3 ||| ((r >>> 12) % 256))
  let p := p.set 1 (tx ||| (((r >>> 6) % 256) &&& maskx))
  let p := p.set 2 (tx ||| ((r % 256) &&& maskx))
  pure (p, 3)

/-- The function `utf8.EncodeRune(p, r)`: the slice after the write and the
number of bytes written; panics when `p` is too short. -/
def EncodeRune (p : List Nat) (r : Nat) : Option (List Nat × Nat) :=
  if r ≤ rune1Max then do
    let _ ← p[0]?
    pure (p.set 0 (r % 256), 1)
  else if r ≤ rune2Max then do
    let _ ← p[1]?
    let p := p.set 0 (t2 ||| ((r >>> 6) % 256))
    let p := p.set 1 (tx ||| ((r % 256) &&& maskx))
    pure (p, 2)
  else if r > MaxRune ∨ (surrogateMin ≤ r ∧ r ≤ surrogateMax) then
    encode3 p RuneError
  else if r ≤ rune3Max then
    encode3 p r
  else do
    let _ ← p[3]?
    let p := p.set 0 (t4 ||| ((r >>> 18) % 256))
    let p := p.set 1 (tx ||| (((r >>> 12) % 256) &&& maskx))
    let p := p.set 2 (tx ||| (((r >>> 6) % 256) &&& maskx))
    let p := p.set 3 (tx ||| ((r % 256) &&& maskx))
    pure (p, 4)

end utf8

/-- The loop `for i := 2; i < rc; i += 2` of `GetStringDescriptor`, from the
state `(i, n, u8buf)`; the first argument bounds the number of iterations, and
running out of it gives `none`. -/
def decodeLoop (p : List Nat) (rc : Int) : Nat → Nat → Nat → List Nat → Option (Nat × List Nat)
  | 0, i, n, u8buf => if (i : Int) < rc then none else some (n, u8buf)
  | fuel + 1, i, n, u8buf =>
    if (i : Int) < rc then do
      let lo ← p[i]?
      let hi ← p[i + 1]?
      let u16s := [((lo % 65536) + (((hi % 65536) <<< 8) % 65536)) % 65536]
      let r := utf16.Decode u16s
      let dst ← sliceFrom u8buf n
      let r0 ← r[0]?
      let (dst, k) ← utf8.EncodeRune dst r0
      decodeLoop p rc fuel (i + 2) (n + k) (u8buf.take n ++ dst)
    else
      some (n, u8buf)

/-- One iteration of the decode loop, as observed: the index `i` of the reads
`p[i]` and `p[i+1]`, the count `n` before the write into `u8buf[n:]` and the
count `n` after it. -/
structure LoopVisit where
  i : Nat
  before : Nat
  after : Nat
deriving DecidableEq, Repr

/-- The loop of `decodeLoop` again, statement for statement, returning the
iterations it ran through in place of the final state; it panics, and runs out
of iterations, exactly where `decodeLoop` does. -/
def decodeLoopVisits (p : List Nat) (rc : Int) :
    Nat → Nat → Nat → List Nat → Option (List LoopVisit)
  | 0, i, _, _ => if (i : Int) < rc then none else some []
  | fuel + 1, i, n, u8buf =>
    if (i : Int) < rc then do
      let lo ← p[i]?
      let hi ← p[i + 1]?
      let u16s := [((lo % 65536) + (((hi % 65536) <<< 8) % 65536)) % 65536]
      let r := utf16.Decode u16s
      let dst ← sliceFrom u8buf n
      let r0 ← r[0]?
      let (dst, k) ← utf8.EncodeRune dst r0
      let later ← decodeLoopVisits p rc fuel (i + 2) (n + k) (u8buf.take n ++ dst)
      pure (⟨i, n, n + k⟩ :: later)
    else
      some []

/-- What `GetStringDescriptor` leaves behind: the Go result `(s, err)`, the
string as its bytes, and the stub. -/
structure StringResult where
  s : List Nat
  err : Option GoError
  usb : Usb

def Handle.GetStringDescriptor (u : Usb) (_h : Handle) (desc_index langid : Nat) :
    Option StringResult :=
  if desc_index = 0 then
    some ⟨[], none, u⟩
  else do
    let p := List.replicate 256 0
    let _ ← p[0]?
    let (r, u) := u.call (.get_string_descriptor (desc_index % 256) (langid % 65536) p.length)
    let p := writeBuf p r.data
    let rc := r.rc
    if rc < 0 then
      pure ⟨[], some (.usb rc), u⟩
    else if rc < 4 then
      pure ⟨[], none, u⟩
    else do
      let u8buf := List.replicate (rc * 2).toNat 0
      let (n, u8buf) ← decodeLoop p rc rc.toNat 2 0 u8buf
      let s ← sliceFromTo u8buf 0 n
      pure ⟨s, none, u⟩

def Handle.GetManufacturerString (u : Usb) (h : Handle) : Option StringResult :=
  Handle.GetStringDescriptor u h h.dev.IdxManufacturer 0

/-- A stub that answers every call with the same reply. -/
def constUsb (r : HostReply) : Usb := ⟨fun _ _ => r, []⟩

/-! ## String decoding, as the specification words it -/

/-- UTF-16 decoding of one code unit taken alone: a surrogate code unit has no
partner and decodes to U+FFFD, any other code unit is its own scalar value. -/
def specScalar (c : Nat) : Nat :=
  if 0xD800 ≤ c ∧ c ≤ 0xDFFF then 0xFFFD else c

/-- UTF-8 encoding of a Unicode scalar value, by the arithmetic of its bit
groups. -/
def specUtf8 (r : Nat) : List Nat :=
  if r < 0x80 then [r]
  else if r < 0x800 then [0xC0 + r / 64, 0x80 + r % 64]
  else if r < 0x10000 then [0xE0 + r / 4096, 0x80 + r / 64 % 64, 0x80 + r % 64]
  else [0xF0 + r / 262144, 0x80 + r / 4096 % 64, 0x80 + r / 64 % 64, 0x80 + r % 64]

/-- The indices `i = 2, 4, 6, ...` below `rc`, in order. -/
def specIndices (rc : Nat) : List Nat :=
  List.range' 2 ((rc - 1) / 2) 2

/-- The bytes the code unit at `p[i], p[i+1]` (little-endian) contributes. -/
def specAt (p : List Nat) (i : Nat) : List Nat :=
  specUtf8 (specScalar (p.getD i 0 + 256 * p.getD (i + 1) 0))

/-- The decoded string: the contributions of the code units at
`i = 2, 4, 6, ... < rc`, concatenated in order. -/
def specString (p : List Nat) (rc : Nat) : List Nat :=
  (specIndices rc).flatMap (specAt p)

/-! ## Descriptor parsing: theorems -/

/-- Two bytes read little-endian: the low byte plus 256 times the high one. -/
theorem usbEncoding_Uint16_bytes (b0 b1 : Nat) (rest : List Nat) (h0 : b0 < 256)
    (h1 : b1 < 256) : usbEncoding_Uint16 (b0 :: b1 :: rest) = some (b0 + 256 * b1) := by
  have e0 : b0 % 65536 = b0 := Nat.mod_eq_of_lt (by omega)
  have e1 : b1 % 65536 = b1 := Nat.mod_eq_of_lt (by omega)
  have e2 : (b1 <<< 8) % 65536 = 2 ^ 8 * b1 := by
    rw [Nat.shiftLeft_eq, Nat.mod_eq_of_lt (by omega)]; omega
  have e3 : 2 ^ 8 * b1 + b0 = 2 ^ 8 * b1 ||| b0 :=
    Nat.mul_add_lt_is_or (by omega) b1
  simp only [usbEncoding_Uint16, List.getElem?_cons_succ, List.getElem?_cons_zero,
    Option.bind_eq_bind, Option.some_bind, Option.pure_def, e0, e1, e2]
  rw [Nat.or_comm, ← e3]
  congr 1
  omega

/-- C1: a truncated buffer is rejected without a descriptor. A buffer shorter
than 2 bytes gives the error "too less bytes"; a buffer of at least 2 bytes
that is shorter than its declared length `b[0]` gives "no enough data",
whatever the type byte `b[1]` is. -/
theorem ParseDescriptor_truncated (b : List Nat) :
    (b.length < 2 →
      ParseDescriptor b = some (none, some (GoError.text "too less bytes"))) ∧
    (∀ h : 2 ≤ b.length, b.length < b[0] →
      ParseDescriptor b = some (none, some (GoError.text "no enough data"))) := by
  constructor
  · intro h
    simp [ParseDescriptor, h, errTooLess]
  · intro h hlt
    match b, h, hlt with
    | x0 :: x1 :: rest, _, hlt =>
      simp only [List.getElem_cons_zero, List.length_cons] at hlt
      simp [ParseDescriptor, errNoEnough, hlt]

theorem ParseDescriptor_truncated_witness :
    ParseDescriptor [18] = some (none, some (GoError.text "too less bytes")) ∧
    ParseDescriptor [18, 1, 0, 2] = some (none, some (GoError.text "no enough data")) :=
  ⟨(ParseDescriptor_truncated [18]).1 (by decide),
   (ParseDescriptor_truncated [18, 1, 0, 2]).2 (by decide) (by decide)⟩

/-- C2: an 18-byte buffer with `b[0] = 18` and `b[1] = 0x01` parses to a
`DeviceDescriptor` whose every field is the byte (or little-endian pair of
bytes) at its offset. -/
theorem ParseDescriptor_device (b : List Nat) (hlen : b.length = 18)
    (hb : ∀ x ∈ b, x < 256) (h0 : b[0] = 18) (h1 : b[1] = 0x01) :
    ParseDescriptor b = some (some (Descriptor.device
      { Length := b[0]
        DescriptorType := b[1]
        BcdUSB := b[2] + 256 * b[3]
        DeviceClass := b[4]
        DeviceSubClass := b[5]
        DeviceProtol := b[6]
        MaxPacketSize0 := b[7]
        IDVender := b[8] + 256 * b[9]
        IDProduct := b[10] + 256 * b[11]
        BcdDevice := b[12] + 256 * b[13]
        IdxManufacturer := b[14]
        IdxProduct := b[15]
        IdxSerialNumber := b[16]
        NumConfiguation := b[17] }), none) := by
  match b, hlen, hb, h0, h1 with
  | [x0, x1, x2, x3, x4, x5, x6, x7, x8, x9, x10, x11, x12, x13, x14, x15, x16, x17],
    _, hb, h0, h1 =>
    simp only [List.getElem_cons_zero, List.getElem_cons_succ] at h0 h1
    subst h0 h1
    simp only [List.mem_cons, forall_eq_or_imp] at hb
    obtain ⟨-, -, b2, b3, -, -, -, -, b8, b9, b10, b11, b12, b13, -⟩ := hb
    simp [ParseDescriptor, DeviceDescriptor.Put, sliceFrom, DescriptorTypeDevice,
      deviceDescriptorLength, usbEncoding_Uint16_bytes, b2, b3, b8, b9, b10, b11, b12, b13]

theorem ParseDescriptor_device_witness :
    ParseDescriptor [18, 1, 0x00, 0x02, 0xEF, 2, 1, 64, 0x6D, 0x04, 0x25, 0x08, 0x12, 0x00,
        1, 2, 3, 1] =
      some (some (Descriptor.device ⟨18, 1, 0x0200, 0xEF, 2, 1, 64, 0x046D, 0x0825, 0x0012,
        1, 2, 3, 1⟩), none) :=
  ParseDescriptor_device [18, 1, 0x00, 0x02, 0xEF, 2, 1, 64, 0x6D, 0x04, 0x25, 0x08, 0x12,
    0x00, 1, 2, 3, 1] (by decide) (by decide) (by decide) (by decide)

/-- C3: a buffer that passes the truncation checks, whose type byte is Device,
Configuration, Interface or Endpoint and whose declared length `b[0]` is not
that type's constant (18, 9, 9, 7), gives the error "descriptor length
mismatch" and no descriptor. -/
theorem ParseDescriptor_length_mismatch (b : List Nat) (h2 : 2 ≤ b.length)
    (hlen : b[0] ≤ b.length)
    (hty : (b[1] = 0x01 ∧ b[0] ≠ 18) ∨ (b[1] = 0x02 ∧ b[0] ≠ 9) ∨
      (b[1] = 0x04 ∧ b[0] ≠ 9) ∨ (b[1] = 0x05 ∧ b[0] ≠ 7)) :
    ParseDescriptor b = some (none, some (GoError.text "descriptor length mismatch")) := by
  match b, h2, hlen, hty with
  | x0 :: x1 :: rest, _, hlen, hty =>
    simp only [List.getElem_cons_zero, List.getElem_cons_succ, List.length_cons] at hlen hty
    have hnlt : ¬ (rest.length + 1 + 1 < x0) := by omega
    rcases hty with ⟨e, hne⟩ | ⟨e, hne⟩ | ⟨e, hne⟩ | ⟨e, hne⟩ <;> subst e <;>
      simp [ParseDescriptor, hnlt, hne, errLengthMismatch, DescriptorTypeDevice,
        DescriptorTypeConfig, DescriptorTypeInterface, DescriptorTypeEndpoint,
        deviceDescriptorLength, configurationDescriptorLength, interfaceDescriptorLength,
        endpointDescriptorLength]

theorem ParseDescriptor_length_mismatch_witness :
    ParseDescriptor [8, 2, 0, 0, 0, 0, 0, 0] =
      some (none, some (GoError.text "descriptor length mismatch")) :=
  ParseDescriptor_length_mismatch [8, 2, 0, 0, 0, 0, 0, 0] (by decide) (by decide)
    (by decide)

/-- C10: a 7-byte buffer with `b[0] = 7`, `b[1] = 0x05` and `b[2] = a` parses to
an `EndpointDescriptor` with `Ep() = a & 0x0F`, `InOut() = a & 0x80` and
`TransferType() = b[3] & 0x03`, for every byte `a`. -/
theorem ParseDescriptor_endpoint (a : Nat) (b : List Nat) (ha : a < 256)
    (hlen : b.length = 7) (hb : ∀ x ∈ b, x < 256) (h0 : b[0] = 7) (h1 : b[1] = 0x05)
    (h2 : b[2] = a) :
    ∃ d : EndpointDescriptor, ParseDescriptor b = some (some (Descriptor.endpoint d), none) ∧
      d.Ep = a &&& 0x0F ∧ d.InOut = a &&& 0x80 ∧ d.TransferType = b[3] &&& 0x03 := by
  match b, hlen, hb, h0, h1, h2 with
  | [x0, x1, x2, x3, x4, x5, x6], _, hb, h0, h1, h2 =>
    simp only [List.getElem_cons_zero, List.getElem_cons_succ] at h0 h1 h2
    subst h0 h1 h2
    simp only [List.mem_cons, forall_eq_or_imp] at hb
    obtain ⟨-, -, -, -, b4, b5, -⟩ := hb
    refine ⟨⟨7, 5, x2, x3, x4 + 256 * x5, x6⟩, ?_, rfl, rfl, rfl⟩
    simp [ParseDescriptor, EndpointDescriptor.Put, sliceFrom, DescriptorTypeDevice,
      DescriptorTypeConfig, DescriptorTypeInterface, DescriptorTypeEndpoint,
      endpointDescriptorLength, usbEncoding_Uint16_bytes, b4, b5]

theorem ParseDescriptor_endpoint_witness :
    ∃ d : EndpointDescriptor,
      ParseDescriptor [7, 5, 0x8F, 3, 0x40, 0x00, 10] =
        some (some (Descriptor.endpoint d), none) ∧
      d.Ep = 0x8F &&& 0x0F ∧ d.InOut = 0x8F &&& 0x80 ∧ d.TransferType = 3 &&& 0x03 :=
  ParseDescriptor_endpoint 0x8F [7, 5, 0x8F, 3, 0x40, 0x00, 10] (by decide) (by decide)
    (by decide) (by decide) (by decide) (by decide)

/-! ## Transfers: theorems -/

/-- C4: the endpoint address handed to libusb at the caller-supplied endpoint
`0x08`. `BulkRead` and `InterruptRead` pass `0x80`, `BulkWrite` and
`InterruptWrite` pass `0x00`: the endpoint is masked with `0x07`, so bit 3 of the
endpoint number is lost, where masking to the low 4 bits gives `0x88` and `0x08`.
The accessor `EndpointDescriptor.Ep` of the same package keeps the 4 bits. -/
theorem endpoint_mask_at_0x08 :
    (Handle.BulkRead (constUsb ⟨0, 1, []⟩) {} 0x08 [0]).map (fun t => t.usb.calls) =
      some [HostCall.bulk_transfer 0x80 1 0] ∧
    (Handle.BulkWrite (constUsb ⟨0, 1, []⟩) {} 0x08 [0]).map (fun t => t.usb.calls) =
      some [HostCall.bulk_transfer 0x00 1 0] ∧
    (Handle.InterruptRead (constUsb ⟨0, 1, []⟩) {} 0x08 [0]).map (fun t => t.usb.calls) =
      some [HostCall.interrupt_transfer 0x80 1 0] ∧
    (Handle.InterruptWrite (constUsb ⟨0, 1, []⟩) {} 0x08 [0]).map (fun t => t.usb.calls) =
      some [HostCall.interrupt_transfer 0x00 1 0] ∧
    (0x08 &&& 0x0F) ||| 0x80 = 0x88 ∧ 0x08 &&& 0x0F = 0x08 ∧
    EndpointDescriptor.Ep { EndpointAddress := 0x88 } = 0x08 := by
  decide

/-- C5: how the status `rc` reported by libusb becomes the Go result. A bulk or
an interrupt transfer returns `(0, Error(rc))` for every non-zero `rc` and
`(t, nil)`, `t` the transferred count, for `rc = 0`; a control transfer returns
`(0, Error(rc))` for `rc < 0` and `(rc, nil)` otherwise, so `rc = 0` is a
success with 0 bytes. (A bulk or interrupt transfer reaches libusb only with a
non-empty buffer.) -/
theorem transfer_status (u : Usb) (h : Handle) (ep typ req value index timeout : Nat)
    (p : List Nat) (rc t : Int) (data : List Nat) :
    (p ≠ [] →
      u.reply u.calls (.bulk_transfer (ep % 256) p.length (timeout % 4294967296)) =
        ⟨rc, t, data⟩ →
      ∃ tr, Handle.bulkTransferTimeout u h ep p timeout = some tr ∧
        (rc ≠ 0 → tr.n = 0 ∧ tr.err = some (GoError.usb rc)) ∧
        (rc = 0 → tr.n = t ∧ tr.err = none)) ∧
    (p ≠ [] →
      u.reply u.calls (.interrupt_transfer (ep % 256) p.length (timeout % 4294967296)) =
        ⟨rc, t, data⟩ →
      ∃ tr, Handle.interruptTransferTimeout u h ep p timeout = some tr ∧
        (rc ≠ 0 → tr.n = 0 ∧ tr.err = some (GoError.usb rc)) ∧
        (rc = 0 → tr.n = t ∧ tr.err = none)) ∧
    (u.reply u.calls (.control_transfer (typ % 256) (req % 256) (value % 65536)
        (index % 65536) (p.length % 65536) (timeout % 4294967296)) = ⟨rc, t, data⟩ →
      ∃ tr, Handle.ControlTransferTimeout u h typ req value index p timeout = some tr ∧
        (rc < 0 → tr.n = 0 ∧ tr.err = some (GoError.usb rc)) ∧
        (0 ≤ rc → tr.n = rc ∧ tr.err = none) ∧
        (rc = 0 → tr.n = 0 ∧ tr.err = none)) := by
  refine ⟨?_, ?_, ?_⟩
  · intro hp hr
    obtain ⟨x, xs, rfl⟩ := List.exists_cons_of_ne_nil hp
    simp only [List.length_cons] at hr
    by_cases h0 : rc = 0 <;>
      simp [Handle.bulkTransferTimeout, Usb.call, hr, h0]
  · intro hp hr
    obtain ⟨x, xs, rfl⟩ := List.exists_cons_of_ne_nil hp
    simp only [List.length_cons] at hr
    by_cases h0 : rc = 0 <;>
      simp [Handle.interruptTransferTimeout, Usb.call, hr, h0]
  · intro hr
    by_cases h0 : rc < 0
    · simp [Handle.ControlTransferTimeout, Usb.call, hr, h0]
      omega
    · simp only [Handle.ControlTransferTimeout, Usb.call, hr, if_neg h0]
      refine ⟨_, rfl, ?_, ?_, ?_⟩
      · intro h1; exact absurd h1 h0
      · intro _; exact ⟨rfl, rfl⟩
      · intro h1; exact ⟨h1, rfl⟩

theorem transfer_status_witness :
    (∃ tr, Handle.bulkTransferTimeout (constUsb ⟨1, 7, []⟩) {} 0x81 [0, 0] 0 = some tr ∧
      (tr.n, tr.err) = (0, some (GoError.usb 1))) ∧
    (∃ tr, Handle.interruptTransferTimeout (constUsb ⟨-1, 7, []⟩) {} 0x81 [0, 0] 0 = some tr ∧
      (tr.n, tr.err) = (0, some (GoError.usb (-1)))) ∧
    (∃ tr, Handle.ControlTransferTimeout (constUsb ⟨0, 7, []⟩) {} 0xC0 1 0 0 [0, 0] 0 = some tr ∧
      (tr.n, tr.err) = (0, none)) := by
  refine ⟨?_, ?_, ?_⟩
  · obtain ⟨tr, e, h1, -⟩ := (transfer_status (constUsb ⟨1, 7, []⟩) {} 0x81 0xC0 1 0 0 0
      [0, 0] 1 7 []).1 (by decide) rfl
    exact ⟨tr, e, by rw [(h1 (by decide)).1, (h1 (by decide)).2]⟩
  · obtain ⟨tr, e, h1, -⟩ := (transfer_status (constUsb ⟨-1, 7, []⟩) {} 0x81 0xC0 1 0 0 0
      [0, 0] (-1) 7 []).2.1 (by decide) rfl
    exact ⟨tr, e, by rw [(h1 (by decide)).1, (h1 (by decide)).2]⟩
  · obtain ⟨tr, e, -, -, h1⟩ := (transfer_status (constUsb ⟨0, 7, []⟩) {} 0x81 0xC0 1 0 0 0
      [0, 0] 0 7 []).2.2 rfl
    exact ⟨tr, e, by rw [(h1 rfl).1, (h1 rfl).2]⟩

/-- C7: a bulk stream adapter whose flag lacks the read bit answers `Read` with
`(0, "bulk transfer: cannot read")` and one whose flag lacks the write bit
answers `Write` with `(0, "bulk transfer: cannot write")`, for every buffer,
leaving the buffer and the stub (its log of calls included) as they were; the
adapters built by `GetBulkWriter` and `GetBulkReader` are such adapters. -/
theorem BulkTransfer_capability (u : Usb) (h : Handle) (bt : BulkTransfer) (ep : Nat)
    (p : List Nat) :
    (bt.flag &&& 1 = 0 → BulkTransfer.Read u bt p =
      some ⟨0, some (GoError.text "bulk transfer: cannot read"), p, u⟩) ∧
    (bt.flag &&& 2 = 0 → BulkTransfer.Write u bt p =
      some ⟨0, some (GoError.text "bulk transfer: cannot write"), p, u⟩) ∧
    BulkTransfer.Read u (h.GetBulkWriter ep) p =
      some ⟨0, some (GoError.text "bulk transfer: cannot read"), p, u⟩ ∧
    BulkTransfer.Write u (h.GetBulkReader ep) p =
      some ⟨0, some (GoError.text "bulk transfer: cannot write"), p, u⟩ := by
  refine ⟨?_, ?_, ?_, ?_⟩
  · intro hf
    have hf1 : bt.flag &&& bulkTransferCanRead = 0 := hf
    simp [BulkTransfer.Read, hf1, errCannotRead]
  · intro hf
    have hf1 : bt.flag &&& bulkTransferCanWrite = 0 := hf
    simp [BulkTransfer.Write, hf1, errCannotWrite]
  · have hf1 : (h.GetBulkWriter ep).flag &&& bulkTransferCanRead = 0 := by
      show (1 <<< 1 : Nat) &&& (1 <<< 0) = 0
      decide
    simp [BulkTransfer.Read, hf1, errCannotRead]
  · have hf1 : (h.GetBulkReader ep).flag &&& bulkTransferCanWrite = 0 := by
      show (1 <<< 0 : Nat) &&& (1 <<< 1) = 0
      decide
    simp [BulkTransfer.Write, hf1, errCannotWrite]

theorem BulkTransfer_capability_witness :
    BulkTransfer.Read (constUsb ⟨0, 4, [1, 2, 3, 4]⟩) { flag := 2 } [0, 0, 0, 0] =
      some ⟨0, some (GoError.text "bulk transfer: cannot read"), [0, 0, 0, 0],
        constUsb ⟨0, 4, [1, 2, 3, 4]⟩⟩ ∧
    BulkTransfer.Write (constUsb ⟨0, 4, [1, 2, 3, 4]⟩) { flag := 1 } [9, 9] =
      some ⟨0, some (GoError.text "bulk transfer: cannot write"), [9, 9],
        constUsb ⟨0, 4, [1, 2, 3, 4]⟩⟩ :=
  ⟨(BulkTransfer_capability (constUsb ⟨0, 4, [1, 2, 3, 4]⟩) {} { flag := 2 } 0
      [0, 0, 0, 0]).1 (by decide),
   (BulkTransfer_capability (constUsb ⟨0, 4, [1, 2, 3, 4]⟩) {} { flag := 1 } 0
      [9, 9]).2.1 (by decide)⟩

/-- C8: for every handle and language id, `GetStringDescriptor` with descriptor
index 0 returns the empty string and no error and leaves the stub as it was:
no call is added to its log. -/
theorem GetStringDescriptor_index_zero (u : Usb) (h : Handle) (langid : Nat) :
    Handle.GetStringDescriptor u h 0 langid = some ⟨[], none, u⟩ ∧
    (Handle.GetStringDescriptor u h 0 langid).map (fun r => r.usb.calls) = some u.calls := by
  simp [Handle.GetStringDescriptor]

/-- C9: for every non-zero index, when libusb reports a byte count `rc` with
`0 ≤ rc < 4`, `GetStringDescriptor` returns the empty string and no error,
whatever libusb stored in the buffer. -/
theorem GetStringDescriptor_short (u : Usb) (h : Handle) (desc_index langid : Nat)
    (rc t : Int) (data : List Nat) (hidx : desc_index ≠ 0)
    (hr : u.reply u.calls
      (.get_string_descriptor (desc_index % 256) (langid % 65536) 256) = ⟨rc, t, data⟩)
    (h0 : 0 ≤ rc) (h4 : rc < 4) :
    Handle.GetStringDescriptor u h desc_index langid =
      some ⟨[], none,
        (u.call (.get_string_descriptor (desc_index % 256) (langid % 65536) 256)).2⟩ := by
  have hn : ¬ rc < 0 := by omega
  have hp0 : (List.replicate 256 0)[0]? = some 0 := by
    rw [List.getElem?_replicate, if_pos (by decide)]
  simp only [Handle.GetStringDescriptor, if_neg hidx, hp0, List.length_replicate, Usb.call, hr,
    if_neg hn, if_pos h4, Option.bind_eq_bind, Option.some_bind, Option.pure_def]

theorem GetStringDescriptor_short_witness :
    Handle.GetStringDescriptor (constUsb ⟨3, 0, [3, 3, 0x41]⟩) {} 1 0x0409 =
      some ⟨[], none,
        ((constUsb ⟨3, 0, [3, 3, 0x41]⟩).call (.get_string_descriptor 1 0x0409 256)).2⟩ :=
  GetStringDescriptor_short (constUsb ⟨3, 0, [3, 3, 0x41]⟩) {} 1 0x0409 3 0 [3, 3, 0x41]
    (by decide) rfl (by decide) (by decide)

/-! ## String decoding: theorems -/

/-- The index list of the specification holds exactly the even indices from 2
up to `rc`, excluded. -/
theorem mem_specIndices (rc i : Nat) :
    i ∈ specIndices rc ↔ 2 ≤ i ∧ i < rc ∧ i % 2 = 0 := by
  simp only [specIndices, List.mem_range']
  constructor
  · rintro ⟨k, hk, rfl⟩
    omega
  · rintro ⟨h2, hlt, hev⟩
    exact ⟨(i - 2) / 2, by omega, by omega⟩

theorem Decode_single (c : Nat) : utf16.Decode [c] = [specScalar c] := by
  simp only [utf16.Decode, specScalar, utf16.surr1, utf16.surr3, utf16.replacementChar]
  by_cases h : c < 0xd800 ∨ 0xe000 ≤ c
  · rw [if_pos h, if_neg (by omega)]
  · rw [if_neg h, if_pos (by omega)]

theorem specScalar_range (c : Nat) (hc : c < 0x10000) :
    specScalar c < 0x10000 ∧ ¬ (0xD800 ≤ specScalar c ∧ specScalar c ≤ 0xDFFF) := by
  unfold specScalar
  split_ifs <;> omega

theorem specUtf8_length_le (r : Nat) (hr : r < 0x10000) : (specUtf8 r).length ≤ 3 := by
  unfold specUtf8
  split_ifs <;> simp

theorem or_C0 : ∀ x < 32, 0xC0 ||| x = 0xC0 + x := by decide
theorem or_E0 : ∀ x < 16, 0xE0 ||| x = 0xE0 + x := by decide
theorem or_80 : ∀ x < 64, 0x80 ||| x = 0x80 + x := by decide
theorem and_3F (y : Nat) : y &&& 0x3F = y % 64 := Nat.and_pow_two_sub_one_eq_mod y 6

/-- On a scalar of the basic plane that is no surrogate, `EncodeRune` writes the
UTF-8 encoding at the head of a slice of at least 3 bytes. -/
theorem EncodeRune_spec (p : List Nat) (r : Nat) (hr : r < 0x10000)
    (hs : ¬ (0xD800 ≤ r ∧ r ≤ 0xDFFF)) (hp : 3 ≤ p.length) :
    utf8.EncodeRune p r =
      some (specUtf8 r ++ p.drop (specUtf8 r).length, (specUtf8 r).length) := by
  match p, hp with
  | x :: y :: z :: rest, _ =>
    by_cases h1 : r ≤ 0x7F
    · have e : r % 256 = r := Nat.mod_eq_of_lt (by omega)
      simp [utf8.EncodeRune, utf8.rune1Max, h1, specUtf8, show r < 0x80 by omega, e]
    · by_cases h2 : r ≤ 0x7FF
      · have a1 : (r >>> 6) % 256 = r / 64 := by
          rw [Nat.shiftRight_eq_div_pow]; omega
        have a2 : 0xC0 ||| r / 64 = 0xC0 + r / 64 := or_C0 _ (by omega)
        have a3 : 0x80 ||| (r % 256 &&& 0x3F) = 0x80 + r % 64 := by
          rw [and_3F, or_80 _ (by omega)]; omega
        simp [utf8.EncodeRune, utf8.rune1Max, utf8.rune2Max, utf8.t2, utf8.tx, utf8.maskx,
          h1, h2, specUtf8, show ¬ r < 0x80 by omega, show r < 0x800 by omega, a1, a2, a3]
      · have a1 : (r >>> 12) % 256 = r / 4096 := by
          rw [Nat.shiftRight_eq_div_pow]; omega
        have a2 : 0xE0 ||| r / 4096 = 0xE0 + r / 4096 := or_E0 _ (by omega)
        have a3 : 0x80 ||| ((r >>> 6) % 256 &&& 0x3F) = 0x80 + r / 64 % 64 := by
          rw [and_3F, or_80 _ (by omega), Nat.shiftRight_eq_div_pow]; omega
        have a4 : 0x80 ||| (r % 256 &&& 0x3F) = 0x80 + r % 64 := by
          rw [and_3F, or_80 _ (by omega)]; omega
        have h3 : ¬ (r > 0x10FFFF ∨ (0xD800 ≤ r ∧ r ≤ 0xDFFF)) := by omega
        simp [utf8.EncodeRune, utf8.encode3, utf8.rune1Max, utf8.rune2Max, utf8.rune3Max,
          utf8.MaxRune, utf8.surrogateMin, utf8.surrogateMax, utf8.t3, utf8.tx, utf8.maskx,
          h1, h2, h3, specUtf8, show ¬ r < 0x80 by omega, show ¬ r < 0x800 by omega,
          show r < 0x10000 by omega, show r ≤ 0xFFFF by omega, a1, a2, a3, a4]

/-- One iteration of the loop: with the bytes written so far in `acc`, room for
3 more bytes in `rest` and both index reads in range, the iteration appends the
contribution of the code unit at `i` and moves on to `i + 2`. -/
theorem decodeLoop_step (p : List Nat) (rc fuel i : Nat) (acc rest : List Nat)
    (hb : ∀ x ∈ p, x < 256) (hi : i < rc) (hip : i + 1 < p.length)
    (hrest : 3 ≤ rest.length) :
    decodeLoop p (rc : Int) (fuel + 1) i acc.length (acc ++ rest) =
      decodeLoop p (rc : Int) fuel (i + 2) (acc ++ specAt p i).length
        ((acc ++ specAt p i) ++ rest.drop (specAt p i).length) := by
  have hi0 : i < p.length := by omega
  have hlo : p[i] < 256 := hb _ (List.getElem_mem _)
  have hhi : p[i + 1] < 256 := hb _ (List.getElem_mem _)
  have e1 : p[i]? = some p[i] := List.getElem?_eq_getElem hi0
  have e2 : p[i + 1]? = some p[i + 1] := List.getElem?_eq_getElem hip
  have e3 : (p[i] % 65536 + (p[i + 1] % 65536) <<< 8 % 65536) % 65536 =
      p[i] + 256 * p[i + 1] := by
    rw [Nat.shiftLeft_eq]
    omega
  have e4 : sliceFrom (acc ++ rest) acc.length = some rest := by
    simp [sliceFrom]
  have e5 : specAt p i = specUtf8 (specScalar (p[i] + 256 * p[i + 1])) := by
    simp only [specAt, List.getD_eq_getElem _ _ hi0, List.getD_eq_getElem _ _ hip]
  have hsc := specScalar_range (p[i] + 256 * p[i + 1]) (by omega)
  have e6 := EncodeRune_spec rest (specScalar (p[i] + 256 * p[i + 1])) hsc.1 hsc.2 hrest
  have hcast : ((i : Int) < (rc : Int)) := by exact_mod_cast hi
  rw [decodeLoop, if_pos hcast]
  simp only [e1, e2, e3, e4, e5, e6, Decode_single, Option.bind_eq_bind, Option.some_bind,
    List.getElem?_cons_zero, List.take_left, List.length_append, List.append_assoc]

/-- The loop from the state `(i, n, u8buf)`, `i` even: with the bytes written so
far in `acc` and room in `rest` for 3 bytes per remaining iteration, it ends,
without an index out of range, with `acc` followed by the contributions of the
code units at `i, i + 2, ... < rc`. -/
theorem decodeLoop_spec (p : List Nat) (rc : Nat) (hp : p.length = 256)
    (hb : ∀ x ∈ p, x < 256) (hrc : rc ≤ 256) :
    ∀ (fuel i : Nat) (acc rest : List Nat), i % 2 = 0 → (rc + 1 - i) / 2 ≤ fuel →
      3 * ((rc + 1 - i) / 2) ≤ rest.length →
      decodeLoop p (rc : Int) fuel i acc.length (acc ++ rest) =
        some ((acc ++ (List.range' i ((rc + 1 - i) / 2) 2).flatMap (specAt p)).length,
          (acc ++ (List.range' i ((rc + 1 - i) / 2) 2).flatMap (specAt p)) ++
            rest.drop ((List.range' i ((rc + 1 - i) / 2) 2).flatMap (specAt p)).length) := by
  intro fuel
  induction fuel with
  | zero =>
    intro i acc rest _ hfuel _
    have hcnt : (rc + 1 - i) / 2 = 0 := by omega
    have hge : ¬ ((i : Int) < (rc : Int)) := by
      have : ¬ i < rc := by omega
      exact_mod_cast this
    simp [decodeLoop, hge, hcnt]
  | succ fuel ih =>
    intro i acc rest hev hfuel hroom
    by_cases hi : i < rc
    · have hcnt : (rc + 1 - i) / 2 = (rc + 1 - (i + 2)) / 2 + 1 := by omega
      have hlen := specUtf8_length_le (specScalar (p.getD i 0 + 256 * p.getD (i + 1) 0))
        (specScalar_range _ (by
          have h1 : p.getD i 0 < 256 := by
            rw [List.getD_eq_getElem _ _ (by omega)]; exact hb _ (List.getElem_mem _)
          have h2 : p.getD (i + 1) 0 < 256 := by
            rw [List.getD_eq_getElem _ _ (by omega)]; exact hb _ (List.getElem_mem _)
          omega)).1
      have hlen2 : (specAt p i).length ≤ 3 := hlen
      rw [decodeLoop_step p rc fuel i acc rest hb hi (by omega) (by omega)]
      rw [ih (i + 2) (acc ++ specAt p i) (rest.drop (specAt p i).length) (by omega)
        (by omega) (by rw [List.length_drop]; omega)]
      rw [hcnt, List.range'_succ, List.flatMap_cons]
      simp only [List.append_assoc, List.length_append, List.drop_drop, Nat.add_assoc]
    · have hcnt : (rc + 1 - i) / 2 = 0 := by omega
      have hge : ¬ ((i : Int) < (rc : Int)) := by exact_mod_cast hi
      simp [decodeLoop, hge, hcnt]

/-- C6: for every non-zero index, every byte count `rc` with `4 ≤ rc ≤ 256`
reported by libusb and every content of the 256-byte buffer, `GetStringDescriptor`
returns, without error, the concatenation, for `i = 2, 4, 6, ... < rc` in order,
of the UTF-8 encoding of the scalar that the code unit `p[i] + 256 * p[i+1]`
decodes to alone (U+FFFD for a surrogate). -/
theorem GetStringDescriptor_decodes (u : Usb) (h : Handle) (desc_index langid : Nat)
    (rc t : Int) (data : List Nat) (hidx : desc_index ≠ 0)
    (hr : u.reply u.calls
      (.get_string_descriptor (desc_index % 256) (langid % 65536) 256) = ⟨rc, t, data⟩)
    (h4 : 4 ≤ rc) (h256 : rc ≤ 256) (hb : ∀ x ∈ data, x < 256) :
    Handle.GetStringDescriptor u h desc_index langid =
      some ⟨specString (writeBuf (List.replicate 256 0) data) rc.toNat, none,
        (u.call (.get_string_descriptor (desc_index % 256) (langid % 65536) 256)).2⟩ := by
  obtain ⟨m, rfl⟩ : ∃ m : Nat, rc = (m : Int) := ⟨rc.toNat, by omega⟩
  have hm4 : 4 ≤ m := by exact_mod_cast h4
  have hm256 : m ≤ 256 := by exact_mod_cast h256
  have hn0 : ¬ ((m : Int) < 0) := by omega
  have hn4 : ¬ ((m : Int) < 4) := by omega
  have hp0 : (List.replicate 256 0)[0]? = some 0 := by
    rw [List.getElem?_replicate, if_pos (by decide)]
  have hplen : (writeBuf (List.replicate 256 0) data).length = 256 := by
    simp only [writeBuf, List.length_append, List.length_take, List.length_drop,
      List.length_replicate]
    omega
  have hpb : ∀ x ∈ writeBuf (List.replicate 256 0) data, x < 256 := by
    intro x hx
    simp only [writeBuf, List.mem_append] at hx
    rcases hx with hx | hx
    · exact hb x (List.mem_of_mem_take hx)
    · have := List.mem_of_mem_drop hx
      rw [List.eq_of_mem_replicate this]
      decide
  have hbuf : (((m : Int) * 2).toNat) = 2 * m := by omega
  have hloop := decodeLoop_spec (writeBuf (List.replicate 256 0) data) m hplen hpb hm256
    m 2 [] (List.replicate (2 * m) 0) (by decide) (by omega)
    (by rw [List.length_replicate]; omega)
  simp only [List.length_nil, List.nil_append] at hloop
  have hidx2 : (m + 1 - 2) / 2 = (m - 1) / 2 := by omega
  rw [hidx2] at hloop
  simp only [Handle.GetStringDescriptor, if_neg hidx, hp0, List.length_replicate, Usb.call, hr,
    if_neg hn0, if_neg hn4, Option.bind_eq_bind, Option.some_bind, Option.pure_def, hbuf,
    Int.toNat_ofNat, hloop, sliceFromTo, specString, specIndices]
  generalize (List.range' 2 ((m - 1) / 2) 2).flatMap
    (specAt (writeBuf (List.replicate 256 0) data)) = out
  rw [if_pos ⟨Nat.zero_le _, by rw [List.length_append]; omega⟩]
  simp only [List.take_left, List.drop_zero, Option.some_bind]

set_option maxRecDepth 100000 in
theorem GetStringDescriptor_decodes_witness :
    Handle.GetStringDescriptor (constUsb ⟨6, 0, [0x03, 0x03, 0x41, 0x00, 0x42, 0x00]⟩) {} 1 0 =
      some ⟨[0x41, 0x42], none,
        ((constUsb ⟨6, 0, [0x03, 0x03, 0x41, 0x00, 0x42, 0x00]⟩).call
          (.get_string_descriptor 1 0 256)).2⟩ ∧
    [0x41, 0x42] = "AB".toUTF8.data.toList.map UInt8.toNat := by
  have e : specString (writeBuf (List.replicate 256 0) [0x03, 0x03, 0x41, 0x00, 0x42, 0x00])
      (6 : Int).toNat = [0x41, 0x42] := by decide
  refine ⟨?_, by decide⟩
  rw [← e]
  exact GetStringDescriptor_decodes (constUsb ⟨6, 0, [0x03, 0x03, 0x41, 0x00, 0x42, 0x00]⟩) {}
    1 0 6 0 [0x03, 0x03, 0x41, 0x00, 0x42, 0x00] (by decide) rfl (by decide) (by decide)
    (by decide)

/-! ## The decode loop stays in range: theorems -/

/-- The observed loop and the loop itself return, or fail to, together. -/
theorem decodeLoopVisits_isSome (p : List Nat) (rc : Int) :
    ∀ (fuel i n : Nat) (u8buf : List Nat),
      (decodeLoopVisits p rc fuel i n u8buf).isSome = (decodeLoop p rc fuel i n u8buf).isSome := by
  intro fuel
  induction fuel with
  | zero =>
    intro i n u8buf
    by_cases hi : (i : Int) < rc <;> simp [decodeLoopVisits, decodeLoop, hi]
  | succ fuel ih =>
    intro i n u8buf
    by_cases hi : (i : Int) < rc
    · rw [decodeLoopVisits, decodeLoop, if_pos hi, if_pos hi]
      simp only [Decode_single, List.getElem?_cons_zero, Option.bind_eq_bind,
        Option.some_bind, Option.pure_def]
      cases p[i]? with
      | none => rfl
      | some lo =>
        cases p[i + 1]? with
        | none => rfl
        | some hi2 =>
          cases sliceFrom u8buf n with
          | none => rfl
          | some dst =>
            simp only [Option.some_bind]
            cases utf8.EncodeRune dst
                (specScalar ((lo % 65536 + (hi2 % 65536) <<< 8 % 65536) % 65536)) with
            | none => rfl
            | some w =>
              simp only [Option.some_bind]
              have h6 := ih (i + 2) (n + w.2) (u8buf.take n ++ w.1)
              cases h7 : decodeLoopVisits p rc fuel (i + 2) (n + w.2) (u8buf.take n ++ w.1) with
              | none =>
                rw [h7] at h6
                simp only [Option.none_bind]
                exact h6
              | some later =>
                rw [h7] at h6
                simp only [Option.some_bind]
                exact h6
    · simp [decodeLoopVisits, decodeLoop, hi]

/-- One observed iteration, under the conditions of `decodeLoop_step`: the visit
records `i`, the count before the write and the count after it. -/
theorem decodeLoopVisits_step (p : List Nat) (rc fuel i : Nat) (acc rest : List Nat)
    (hb : ∀ x ∈ p, x < 256) (hi : i < rc) (hip : i + 1 < p.length)
    (hrest : 3 ≤ rest.length) :
    decodeLoopVisits p (rc : Int) (fuel + 1) i acc.length (acc ++ rest) =
      (decodeLoopVisits p (rc : Int) fuel (i + 2) (acc ++ specAt p i).length
        ((acc ++ specAt p i) ++ rest.drop (specAt p i).length)).map
        (fun later => ⟨i, acc.length, (acc ++ specAt p i).length⟩ :: later) := by
  have hi0 : i < p.length := by omega
  have hlo : p[i] < 256 := hb _ (List.getElem_mem _)
  have hhi : p[i + 1] < 256 := hb _ (List.getElem_mem _)
  have e1 : p[i]? = some p[i] := List.getElem?_eq_getElem hi0
  have e2 : p[i + 1]? = some p[i + 1] := List.getElem?_eq_getElem hip
  have e3 : (p[i] % 65536 + (p[i + 1] % 65536) <<< 8 % 65536) % 65536 =
      p[i] + 256 * p[i + 1] := by
    rw [Nat.shiftLeft_eq]
    omega
  have e4 : sliceFrom (acc ++ rest) acc.length = some rest := by
    simp [sliceFrom]
  have e5 : specAt p i = specUtf8 (specScalar (p[i] + 256 * p[i + 1])) := by
    simp only [specAt, List.getD_eq_getElem _ _ hi0, List.getD_eq_getElem _ _ hip]
  have hsc := specScalar_range (p[i] + 256 * p[i + 1]) (by omega)
  have e6 := EncodeRune_spec rest (specScalar (p[i] + 256 * p[i + 1])) hsc.1 hsc.2 hrest
  have hcast : ((i : Int) < (rc : Int)) := by exact_mod_cast hi
  rw [decodeLoopVisits, if_pos hcast]
  simp only [e1, e2, e3, e4, e5, e6, Decode_single, Option.bind_eq_bind, Option.some_bind,
    List.getElem?_cons_zero, List.take_left, List.length_append, List.append_assoc,
    Option.pure_def]
  cases decodeLoopVisits p (rc : Int) fuel (i + 2)
    (acc.length + (specUtf8 (specScalar (p[i] + 256 * p[i + 1]))).length)
    (acc ++ (specUtf8 (specScalar (p[i] + 256 * p[i + 1])) ++
      List.drop (specUtf8 (specScalar (p[i] + 256 * p[i + 1]))).length rest)) <;> rfl

/-- The observed loop from the state `(i, n, u8buf)`, `i` even, with the bytes
written so far in `acc` and room in `rest` for 3 bytes per remaining iteration:
it returns, it visits exactly `i, i + 2, ... < rc`, both reads of every visit
are inside `p`, and the count stays within the buffer before and after every
write. -/
theorem decodeLoopVisits_bounds (p : List Nat) (rc : Nat) (hp : p.length = 256)
    (hb : ∀ x ∈ p, x < 256) (hrc : rc ≤ 256) :
    ∀ (fuel i : Nat) (acc rest : List Nat), i % 2 = 0 → (rc + 1 - i) / 2 ≤ fuel →
      3 * ((rc + 1 - i) / 2) ≤ rest.length →
      ∃ vs, decodeLoopVisits p (rc : Int) fuel i acc.length (acc ++ rest) = some vs ∧
        vs.map (fun v => v.i) = List.range' i ((rc + 1 - i) / 2) 2 ∧
        ∀ v ∈ vs, v.i + 1 < p.length ∧ acc.length ≤ v.before ∧ v.before ≤ v.after ∧
          v.after ≤ acc.length + rest.length := by
  intro fuel
  induction fuel with
  | zero =>
    intro i acc rest _ hfuel _
    have hcnt : (rc + 1 - i) / 2 = 0 := by omega
    have hge : ¬ ((i : Int) < (rc : Int)) := by
      have : ¬ i < rc := by omega
      exact_mod_cast this
    exact ⟨[], by simp [decodeLoopVisits, hge], by simp [hcnt], by simp⟩
  | succ fuel ih =>
    intro i acc rest hev hfuel hroom
    by_cases hi : i < rc
    · have hcnt : (rc + 1 - i) / 2 = (rc + 1 - (i + 2)) / 2 + 1 := by omega
      have hlen : (specAt p i).length ≤ 3 :=
        specUtf8_length_le (specScalar (p.getD i 0 + 256 * p.getD (i + 1) 0))
          (specScalar_range _ (by
            have h1 : p.getD i 0 < 256 := by
              rw [List.getD_eq_getElem _ _ (by omega)]; exact hb _ (List.getElem_mem _)
            have h2 : p.getD (i + 1) 0 < 256 := by
              rw [List.getD_eq_getElem _ _ (by omega)]; exact hb _ (List.getElem_mem _)
            omega)).1
      obtain ⟨vs, hvs, hidx, hall⟩ := ih (i + 2) (acc ++ specAt p i)
        (rest.drop (specAt p i).length) (by omega) (by omega)
        (by rw [List.length_drop]; omega)
      rw [decodeLoopVisits_step p rc fuel i acc rest hb hi (by omega) (by omega), hvs]
      refine ⟨⟨i, acc.length, (acc ++ specAt p i).length⟩ :: vs, rfl, ?_, ?_⟩
      · rw [hcnt, List.range'_succ, List.map_cons, hidx]
      · intro v hv
        rcases List.mem_cons.1 hv with rfl | hv
        · simp only [List.length_append]
          omega
        · have := hall v hv
          simp only [List.length_append, List.length_drop] at this
          omega
    · have hcnt : (rc + 1 - i) / 2 = 0 := by omega
      have hge : ¬ ((i : Int) < (rc : Int)) := by exact_mod_cast hi
      exact ⟨[], by simp [decodeLoopVisits, hge], by simp [hcnt], by simp⟩

/-- C11: in the decode loop of `GetStringDescriptor`, run as the function runs
it (from `i = 2`, `n = 0`, on an output buffer of `2 * rc` bytes), for every
byte count `rc` with `4 ≤ rc ≤ 256`, odd ones included, and every content of the
256-byte buffer `p`: the loop returns without an index out of range; it runs
through `i = 2, 4, 6, ... < rc`; at every iteration `p[i]` and `p[i+1]` are
inside `p`; and the count `n` is at most `2 * rc` before and after every
write. -/
theorem decodeLoop_in_range (p : List Nat) (rc : Int) (hp : p.length = 256)
    (hb : ∀ x ∈ p, x < 256) (h4 : 4 ≤ rc) (h256 : rc ≤ 256) :
    (decodeLoop p rc rc.toNat 2 0 (List.replicate (rc * 2).toNat 0)).isSome = true ∧
    ∃ vs, decodeLoopVisits p rc rc.toNat 2 0 (List.replicate (rc * 2).toNat 0) = some vs ∧
      vs.map (fun v => v.i) = specIndices rc.toNat ∧
      ∀ v ∈ vs, v.i + 1 < p.length ∧ v.before ≤ v.after ∧
        (v.before : Int) ≤ 2 * rc ∧ (v.after : Int) ≤ 2 * rc := by
  obtain ⟨m, rfl⟩ : ∃ m : Nat, rc = (m : Int) := ⟨rc.toNat, by omega⟩
  have hm4 : 4 ≤ m := by exact_mod_cast h4
  have hm256 : m ≤ 256 := by exact_mod_cast h256
  have hbuf : (((m : Int) * 2).toNat) = 2 * m := by omega
  obtain ⟨vs, hvs, hidx, hall⟩ := decodeLoopVisits_bounds p m hp hb hm256 m 2 []
    (List.replicate (2 * m) 0) (by decide) (by omega) (by rw [List.length_replicate]; omega)
  simp only [List.length_nil, List.nil_append] at hvs
  have hidx2 : (m + 1 - 2) / 2 = (m - 1) / 2 := by omega
  rw [hidx2] at hidx
  rw [hbuf, Int.toNat_ofNat]
  refine ⟨?_, vs, hvs, hidx, ?_⟩
  · rw [← decodeLoopVisits_isSome, hvs]
    rfl
  · intro v hv
    have := hall v hv
    simp only [List.length_nil, List.length_replicate] at this
    refine ⟨this.1, this.2.2.1, ?_, ?_⟩ <;> omega

set_option maxRecDepth 100000 in
theorem decodeLoop_in_range_witness :
    (decodeLoop (List.replicate 256 0xFF) 255 (255 : Int).toNat 2 0
      (List.replicate ((255 : Int) * 2).toNat 0)).isSome = true ∧
    ∃ vs, decodeLoopVisits (List.replicate 256 0xFF) 255 (255 : Int).toNat 2 0
        (List.replicate ((255 : Int) * 2).toNat 0) = some vs ∧
      vs.map (fun v => v.i) = specIndices (255 : Int).toNat ∧
      ∀ v ∈ vs, v.i + 1 < (List.replicate 256 0xFF).length ∧ v.before ≤ v.after ∧
        (v.before : Int) ≤ 2 * 255 ∧ (v.after : Int) ≤ 2 * 255 :=
  decodeLoop_in_range (List.replicate 256 0xFF) 255 (by decide) (by decide) (by decide)
    (by decide)

/-! ## Where `ParseDescriptor` panics: theorems -/

/-- C12: `ParseDescriptor` on a String-type buffer whose declared length is 0
or 1. The buffer passes both truncation checks, and `StringDescriptor.Put`
evaluates `b[2:Length]` with `Length < 2`: the slice bounds are out of range and
the call panics, returning neither a descriptor nor an error. With declared
length 2 the same path returns a descriptor with an empty string. -/
theorem ParseDescriptor_string_short_panics :
    ParseDescriptor [0x00, 0x03] = none ∧
    ParseDescriptor [0x01, 0x03, 0x41, 0x00] = none ∧
    StringDescriptor.Put {} [0x00, 0x03] = none ∧
    sliceFromTo [0x00, 0x03] 2 0 = none ∧
    ParseDescriptor [0x02, 0x03] = some (some (.string ⟨2, 3, []⟩), none) := by
  decide

/-- A 16-bit read at offset `k` is in range when `b` has the two bytes. -/
theorem sliceFrom_Uint16_some (b : List Nat) (k : Nat) (h : k + 1 < b.length) :
    (sliceFrom b k).bind usbEncoding_Uint16 =
      some ((b[k] % 65536) ||| (((b[k + 1] % 65536) <<< 8) % 65536)) := by
  have hk : k ≤ b.length := by omega
  have e0 : (b.drop k)[0]? = some b[k] := by
    rw [List.getElem?_drop, Nat.add_zero, List.getElem?_eq_getElem]
  have e1 : (b.drop k)[1]? = some b[k + 1] := by
    rw [List.getElem?_drop, List.getElem?_eq_getElem]
  simp only [sliceFrom, if_pos hk, Option.some_bind, usbEncoding_Uint16, e0, e1,
    Option.bind_eq_bind, Option.pure_def]

theorem DeviceDescriptor_Put_isSome (d : DeviceDescriptor) (b : List Nat)
    (h : 18 ≤ b.length) : (DeviceDescriptor.Put d b).isSome = true := by
  simp only [DeviceDescriptor.Put, Option.bind_eq_bind, Option.pure_def,
    sliceFrom_Uint16_some b 2 (by omega), sliceFrom_Uint16_some b 8 (by omega),
    sliceFrom_Uint16_some b 10 (by omega), sliceFrom_Uint16_some b 12 (by omega),
    List.getElem?_eq_getElem (show 0 < b.length by omega),
    List.getElem?_eq_getElem (show 1 < b.length by omega),
    List.getElem?_eq_getElem (show 4 < b.length by omega),
    List.getElem?_eq_getElem (show 5 < b.length by omega),
    List.getElem?_eq_getElem (show 6 < b.length by omega),
    List.getElem?_eq_getElem (show 7 < b.length by omega),
    List.getElem?_eq_getElem (show 14 < b.length by omega),
    List.getElem?_eq_getElem (show 15 < b.length by omega),
    List.getElem?_eq_getElem (show 16 < b.length by omega),
    List.getElem?_eq_getElem (show 17 < b.length by omega),
    Option.some_bind, Option.isSome_some]

theorem ConfigurationDescriptor_Put_isSome (d : ConfigurationDescriptor) (b : List Nat)
    (h : 9 ≤ b.length) : (ConfigurationDescriptor.Put d b).isSome = true := by
  simp only [ConfigurationDescriptor.Put, Option.bind_eq_bind, Option.pure_def,
    sliceFrom_Uint16_some b 2 (by omega),
    List.getElem?_eq_getElem (show 0 < b.length by omega),
    List.getElem?_eq_getElem (show 1 < b.length by omega),
    List.getElem?_eq_getElem (show 4 < b.length by omega),
    List.getElem?_eq_getElem (show 5 < b.length by omega),
    List.getElem?_eq_getElem (show 6 < b.length by omega),
    List.getElem?_eq_getElem (show 7 < b.length by omega),
    List.getElem?_eq_getElem (show 8 < b.length by omega),
    Option.some_bind, Option.isSome_some]

theorem InterfaceDescriptor_Put_isSome (d : InterfaceDescriptor) (b : List Nat)
    (h : 9 ≤ b.length) : (InterfaceDescriptor.Put d b).isSome = true := by
  simp only [InterfaceDescriptor.Put, Option.bind_eq_bind, Option.pure_def,
    List.getElem?_eq_getElem (show 0 < b.length by omega),
    List.getElem?_eq_getElem (show 1 < b.length by omega),
    List.getElem?_eq_getElem (show 2 < b.length by omega),
    List.getElem?_eq_getElem (show 3 < b.length by omega),
    List.getElem?_eq_getElem (show 4 < b.length by omega),
    List.getElem?_eq_getElem (show 5 < b.length by omega),
    List.getElem?_eq_getElem (show 6 < b.length by omega),
    List.getElem?_eq_getElem (show 7 < b.length by omega),
    List.getElem?_eq_getElem (show 8 < b.length by omega),
    Option.some_bind, Option.isSome_some]

theorem EndpointDescriptor_Put_isSome (d : EndpointDescriptor) (b : List Nat)
    (h : 7 ≤ b.length) : (EndpointDescriptor.Put d b).isSome = true := by
  simp only [EndpointDescriptor.Put, Option.bind_eq_bind, Option.pure_def,
    sliceFrom_Uint16_some b 4 (by omega),
    List.getElem?_eq_getElem (show 0 < b.length by omega),
    List.getElem?_eq_getElem (show 1 < b.length by omega),
    List.getElem?_eq_getElem (show 2 < b.length by omega),
    List.getElem?_eq_getElem (show 3 < b.length by omega),
    List.getElem?_eq_getElem (show 6 < b.length by omega),
    Option.some_bind, Option.isSome_some]

/-- The method `StringDescriptor.Put` on a buffer of at least 2 bytes returns
exactly when the declared length `b[0]` is at least 2 and within the buffer. -/
theorem StringDescriptor_Put_isSome (d : StringDescriptor) (x0 x1 : Nat) (rest : List Nat) :
    (StringDescriptor.Put d (x0 :: x1 :: rest)).isSome = true ↔
      2 ≤ x0 ∧ x0 ≤ rest.length + 2 := by
  simp only [StringDescriptor.Put, Option.bind_eq_bind, Option.pure_def,
    List.getElem?_cons_zero, List.getElem?_cons_succ, Option.some_bind, sliceFromTo,
    List.length_cons]
  by_cases h : 2 ≤ x0 ∧ x0 ≤ rest.length + 1 + 1
  · rw [if_pos h]
    simp only [Option.some_bind, Option.isSome_some, true_iff]
    omega
  · rw [if_neg h]
    simp only [Option.none_bind, Option.isSome_none, Bool.false_eq_true, false_iff]
    omega

/-- The only buffers on which `ParseDescriptor` panics: the type byte `b[1]` is
String (`0x03`) and the declared length `b[0]` is below 2. On every other
buffer, of any length and contents, it returns a descriptor or an error. -/
theorem ParseDescriptor_panics_iff (b : List Nat) :
    ParseDescriptor b = none ↔ b[1]? = some 0x03 ∧ ∃ l, b[0]? = some l ∧ l < 2 := by
  match b with
  | [] => simp [ParseDescriptor]
  | [x0] => simp [ParseDescriptor]
  | x0 :: x1 :: rest =>
    have hlen : ¬ ((x0 :: x1 :: rest).length < 2) := by
      simp only [List.length_cons]; omega
    simp only [ParseDescriptor, if_neg hlen, List.getElem?_cons_zero, List.getElem?_cons_succ,
      Option.bind_eq_bind, Option.some_bind, Option.pure_def, Option.some.injEq,
      exists_eq_left', DescriptorTypeDevice, DescriptorTypeConfig, DescriptorTypeInterface,
      DescriptorTypeEndpoint, DescriptorTypeString, deviceDescriptorLength,
      configurationDescriptorLength, interfaceDescriptorLength, endpointDescriptorLength]
    by_cases hlt : (x0 :: x1 :: rest).length < x0
    · rw [if_pos hlt]
      simp only [List.length_cons] at hlt
      constructor
      · intro h; exact absurd h (by simp)
      · rintro ⟨-, h⟩; omega
    · rw [if_neg hlt]
      have hle : x0 ≤ (x0 :: x1 :: rest).length := by omega
      by_cases h1 : x1 = 1
      · subst h1
        rw [if_pos rfl]
        by_cases hx : x0 = 18
        · subst hx
          simp only [List.length_cons] at hle
          have := DeviceDescriptor_Put_isSome {} (18 :: 1 :: rest)
            (by simp only [List.length_cons]; omega)
          obtain ⟨d, hd⟩ := Option.isSome_iff_exists.1 this
          simp [hd]
        · simp [hx]
      · rw [if_neg h1]
        by_cases h2 : x1 = 2
        · subst h2
          rw [if_pos rfl]
          by_cases hx : x0 = 9
          · subst hx
            simp only [List.length_cons] at hle
            have := ConfigurationDescriptor_Put_isSome {} (9 :: 2 :: rest)
              (by simp only [List.length_cons]; omega)
            obtain ⟨d, hd⟩ := Option.isSome_iff_exists.1 this
            simp [hd]
          · simp [hx]
        · rw [if_neg h2]
          by_cases h4 : x1 = 4
          · subst h4
            rw [if_pos rfl]
            by_cases hx : x0 = 9
            · subst hx
              simp only [List.length_cons] at hle
              have := InterfaceDescriptor_Put_isSome {} (9 :: 4 :: rest)
                (by simp only [List.length_cons]; omega)
              obtain ⟨d, hd⟩ := Option.isSome_iff_exists.1 this
              simp [hd]
            · simp [hx]
          · rw [if_neg h4]
            by_cases h5 : x1 = 5
            · subst h5
              rw [if_pos rfl]
              by_cases hx : x0 = 7
              · subst hx
                simp only [List.length_cons] at hle
                have := EndpointDescriptor_Put_isSome {} (7 :: 5 :: rest)
                  (by simp only [List.length_cons]; omega)
                obtain ⟨d, hd⟩ := Option.isSome_iff_exists.1 this
                simp [hd]
              · simp [hx]
            · rw [if_neg h5]
              by_cases h3 : x1 = 3
              · subst h3
                rw [if_pos rfl]
                have hput := StringDescriptor_Put_isSome {} x0 3 rest
                simp only [List.length_cons] at hle
                cases hd : StringDescriptor.Put {} (x0 :: 3 :: rest) with
                | none =>
                  rw [hd] at hput
                  simp only [Option.isSome_none, Bool.false_eq_true, false_iff] at hput
                  simp only [Option.none_bind, true_and, true_iff]
                  omega
                | some d =>
                  rw [hd] at hput
                  simp only [Option.isSome_some, true_iff] at hput
                  simp only [Option.some_bind, true_and]
                  constructor
                  · intro h; exact absurd h (by simp)
                  · intro h; omega
              · rw [if_neg h3]
                simp [h3]

/-! ## Evaluations -/

theorem ParseDescriptor_eval_string :
    ParseDescriptor [4, 3, 65, 66] = some (some (.string ⟨4, 3, [65, 66]⟩), none) ∧
    ParseDescriptor [2, 3] = some (some (.string ⟨2, 3, []⟩), none) ∧
    ParseDescriptor [2, 0x21] = some (none, some (GoError.text "unknown descriptor")) := by
  decide

theorem ParseDescriptor_eval_config :
    ParseDescriptor [9, 2, 0x20, 0x01, 1, 1, 0, 0x80, 50] =
      some (some (.config ⟨9, 2, 0x0120, 1, 1, 0, 0x80, 50⟩), none) ∧
    ParseDescriptor [9, 4, 0, 0, 2, 3, 1, 1, 0] =
      some (some (.interface ⟨9, 4, 0, 0, 2, 3, 1, 1, 0⟩), none) := by
  decide

set_option maxRecDepth 100000 in
theorem GetStringDescriptor_eval_surrogate :
    ((Handle.GetStringDescriptor (constUsb ⟨6, 0, [6, 3, 0x00, 0xD8, 0xAC, 0x20]⟩) {} 1 0).map
      fun r => (r.s, r.err, r.usb.calls)) =
      some ([0xEF, 0xBF, 0xBD, 0xE2, 0x82, 0xAC], none, [.get_string_descriptor 1 0 256]) ∧
    [0xEF, 0xBF, 0xBD, 0xE2, 0x82, 0xAC] = "�€".toUTF8.data.toList.map UInt8.toNat := by
  decide

theorem BulkRead_eval :
    ((Handle.BulkRead (constUsb ⟨0, 5, [1, 2, 3, 4, 5]⟩) {} 0x03 [0, 0, 0, 0, 0, 0]).map
      fun r => (r.n, r.err, r.p, r.usb.calls)) =
      some (5, none, [1, 2, 3, 4, 5, 0], [.bulk_transfer 0x83 6 0]) := by
  decide

/-- The arithmetic UTF-8 encoding agrees with the encoder of the Lean core
library at the ends of the one-, two- and three-byte ranges. -/
theorem specUtf8_eval :
    specUtf8 0x00 = (String.utf8EncodeChar (Char.ofNat 0x00)).map UInt8.toNat ∧
    specUtf8 0x7F = (String.utf8EncodeChar (Char.ofNat 0x7F)).map UInt8.toNat ∧
    specUtf8 0x80 = (String.utf8EncodeChar (Char.ofNat 0x80)).map UInt8.toNat ∧
    specUtf8 0x7FF = (String.utf8EncodeChar (Char.ofNat 0x7FF)).map UInt8.toNat ∧
    specUtf8 0x800 = (String.utf8EncodeChar (Char.ofNat 0x800)).map UInt8.toNat ∧
    specUtf8 0xD7FF = (String.utf8EncodeChar (Char.ofNat 0xD7FF)).map UInt8.toNat ∧
    specUtf8 0xE000 = (String.utf8EncodeChar (Char.ofNat 0xE000)).map UInt8.toNat ∧
    specUtf8 0xFFFD = (String.utf8EncodeChar (Char.ofNat 0xFFFD)).map UInt8.toNat ∧
    specUtf8 0xFFFF = (String.utf8EncodeChar (Char.ofNat 0xFFFF)).map UInt8.toNat ∧
    specUtf8 0x10000 = (String.utf8EncodeChar (Char.ofNat 0x10000)).map UInt8.toNat ∧
    specUtf8 0x10FFFF = (String.utf8EncodeChar (Char.ofNat 0x10FFFF)).map UInt8.toNat := by
  decide

set_option maxRecDepth 100000 in
theorem decodeLoopVisits_eval :
    decodeLoopVisits (writeBuf (List.replicate 256 0) [0x03, 0x03, 0x41, 0x00, 0x42, 0x00]) 6 6
      2 0 (List.replicate 12 0) = some [⟨2, 0, 1⟩, ⟨4, 1, 2⟩] ∧
    decodeLoopVisits (writeBuf (List.replicate 256 0) [0x05, 0x03, 0xAC, 0x20, 0xE9]) 5 5
      2 0 (List.replicate 10 0) = some [⟨2, 0, 3⟩, ⟨4, 3, 5⟩] ∧
    (decodeLoopVisits (List.replicate 256 0xFF) 255 255 2 0 (List.replicate 510 0)).map
      (fun vs => (vs.length, vs.getLast?)) = some (127, some ⟨254, 378, 381⟩) := by
  decide

end gousb
